import Mathlib

/-
Shallow embedding of the marrakesh auction simulator core
(src/campaigns.py, src/statistics.py, src/run.py, src/impression.py).

Modelling conventions:
- Python floats are modelled as exact rationals (ℚ).
- `math.exp` is abstracted as an explicit function parameter `expf : ℚ → ℚ`
  threaded through the pacing-controller definitions; theorems that depend on
  properties of the exponential take them as hypotheses (e.g. 0 < expf x < 1
  for x < 0), and concrete evaluations instantiate `expf` with a rational
  stand-in satisfying those bounds.
- Python `None` results of `get_bid` are `Option.none`; the engine's truthiness
  test `if bid:` is modelled as "some b with b ≠ 0".
- Python `assert` statements do not appear in the definitions (the functions
  are total); the asserted conditions become hypotheses of the theorems that
  need them.
- Fields of the source classes that only feed the out-of-scope reporting and
  embedding/CTR machinery (tags, cid, numpy embeddings, max_fractional_clicks,
  got_fractional_clicks, plotting state) are omitted; the impression is taken
  as an input record (the impression source is an external collaborator).
- `int(time_s / 60 / 60)` (hour bucket) is modelled as ⌊time_s / (60*60)⌋,
  which agrees with Python's truncation for the non-negative in-day times the
  simulator produces; the source's 24-element bucket list is modelled as a
  function from the bucket index.
-/

/-- ImpressionOnOffer (src/impression.py): an impression record with id,
timestamp, click-through rate and the precomputed click outcome (`_clicked`
in the source). The rng-driven construction is external; the record is taken
as input. -/
structure ImpressionOnOffer where
  iid : ℕ
  time_s : ℚ
  impression_ctr : ℚ
  clicked : Bool
deriving DecidableEq

/-- IndividualStat (src/statistics.py): impression/spend/click counters. -/
structure IndividualStat where
  impressions : ℕ
  spend : ℚ
  clicks : ℕ
deriving DecidableEq

/-- IndividualStat.__init__. -/
def IndividualStat.init : IndividualStat :=
  { impressions := 0, spend := 0, clicks := 0 }

instance : Inhabited IndividualStat := ⟨IndividualStat.init⟩

/-- IndividualStat.register_impression: impressions += 1; spend += price. -/
def IndividualStat.register_impression (s : IndividualStat) (price : ℚ) : IndividualStat :=
  { s with impressions := s.impressions + 1, spend := s.spend + price }

/-- IndividualStat.register_click: clicks += 1. -/
def IndividualStat.register_click (s : IndividualStat) : IndividualStat :=
  { s with clicks := s.clicks + 1 }

/-- RunningStats (src/statistics.py): Welford-style running mean/variance. -/
structure RunningStats where
  n : ℕ
  old_m : ℚ
  new_m : ℚ
  old_s : ℚ
  new_s : ℚ
deriving DecidableEq

/-- RunningStats.__init__. -/
def RunningStats.init : RunningStats :=
  { n := 0, old_m := 0, new_m := 0, old_s := 0, new_s := 0 }

instance : Inhabited RunningStats := ⟨RunningStats.init⟩

/-- RunningStats.push. As in the source, the n = 1 branch leaves `new_s`
untouched. -/
def RunningStats.push (rs : RunningStats) (x : ℚ) : RunningStats :=
  let n := rs.n + 1
  if n = 1 then
    { rs with n := n, old_m := x, new_m := x, old_s := 0 }
  else
    let new_m := rs.old_m + (x - rs.old_m) / (n : ℚ)
    let new_s := rs.old_s + (x - rs.old_m) * (x - new_m)
    { n := n, old_m := new_m, new_m := new_m, old_s := new_s, new_s := new_s }

/-- FullStat (src/statistics.py): one aggregate counter, hourly buckets and the
running price stats. The source's 24-entry list `hours` is modelled as a
function from the integer bucket index. -/
structure FullStat where
  single : IndividualStat
  hours : ℤ → IndividualStat
  cpm_stat : RunningStats

/-- FullStat.__init__. -/
def FullStat.init : FullStat :=
  { single := IndividualStat.init, hours := fun _ => IndividualStat.init,
    cpm_stat := RunningStats.init }

instance : Inhabited FullStat := ⟨FullStat.init⟩

/-- FullStat.register_impression: updates the aggregate counter, the hourly
bucket `int(time_s/60/60)` and the running price stats, and — when the
impression was clicked — the aggregate and hourly click counters. -/
def FullStat.register_impression (st : FullStat) (ioo : ImpressionOnOffer) (price : ℚ) :
    FullStat :=
  let hour : ℤ := ⌊ioo.time_s / (60 * 60)⌋
  let st1 : FullStat :=
    { single := st.single.register_impression price,
      hours := fun h => if h = hour then (st.hours h).register_impression price else st.hours h,
      cpm_stat := st.cpm_stat.push price }
  if ioo.clicked then
    { st1 with
      single := st1.single.register_click,
      hours := fun h => if h = hour then (st1.hours h).register_click else st1.hours h }
  else st1

/-- PacingState: the mutable pacing fields of CampaignPacedMinCPC
(src/campaigns.py, __init__). -/
structure PacingState where
  output_price : ℚ
  exp_avg_pace_slow : ℚ
  exp_avg_pace_fast : ℚ
  last_win_time : ℚ
  last_bid_time : ℚ
deriving DecidableEq

/-- The strategy tag and per-strategy data of a campaign: the base Campaign
class and its three subclasses in src/campaigns.py. -/
inductive CampaignType where
  | base : CampaignType
  | staticCPC (fixed_cpc : ℚ) : CampaignType
  | throttledStaticCPC (fixed_cpc : ℚ) : CampaignType
  | pacedMinCPC (ps : PacingState) : CampaignType
deriving DecidableEq

/-- The `self.type` string of each class (None on the base class). -/
def CampaignType.tag : CampaignType → Option String
  | .base => none
  | .staticCPC _ => some ("StaticCPC")
  | .throttledStaticCPC _ => some ("ThrottledStaticCPC")
  | .pacedMinCPC _ => some ("PacedMinCPC")

/-- Campaign (src/campaigns.py): the common fields of the base class, plus the
strategy data. `tags`/`cid`/embedding fields are omitted (reporting only). -/
structure Campaign where
  daily_budget : ℚ
  hurdle : ℚ
  time_start : ℚ
  time_end : ℚ
  stat : FullStat
  ctype : CampaignType

instance : Inhabited Campaign :=
  ⟨{ daily_budget := 0, hurdle := 1, time_start := 0, time_end := 0,
     stat := FullStat.init, ctype := .base }⟩

/-- Python's `x or d` default idiom used in Campaign.__init__ (`hurdle or 1.0`
etc.): a 0 value is falsy and also replaced by the default. -/
def orDefault (x : Option ℚ) (d : ℚ) : ℚ :=
  match x with
  | none => d
  | some v => if v = 0 then d else v

/-- Campaign.__init__ common-field construction: hurdle defaults to 1.0,
time_start to 0, time_end to 24*60*60, fresh FullStat. -/
def Campaign.init (daily_budget : ℚ) (hurdle time_start time_end : Option ℚ)
    (ctype : CampaignType) : Campaign :=
  { daily_budget := daily_budget,
    hurdle := orDefault hurdle 1,
    time_start := orDefault time_start 0,
    time_end := orDefault time_end (24 * 60 * 60),
    stat := FullStat.init,
    ctype := ctype }

/-- SLOW_T time constant (src/campaigns.py). -/
def SLOW_T : ℚ := 1000

/-- FAST_T time constant (src/campaigns.py). -/
def FAST_T : ℚ := 100

/-- The initial pacing state of CampaignPacedMinCPC.__init__. -/
def pacedInitState : PacingState :=
  { output_price := 1/10, exp_avg_pace_slow := 0, exp_avg_pace_fast := 0,
    last_win_time := -1, last_bid_time := -1 }

/-- CampaignPacedMinCPC.__init__. -/
def CampaignPacedMinCPC.init (daily_budget : ℚ)
    (hurdle time_start time_end : Option ℚ) : Campaign :=
  Campaign.init daily_budget hurdle time_start time_end (.pacedMinCPC pacedInitState)

/-- CampaignStaticCPC.get_bid: decline when spend ≥ budget or when
time_s < time_start or time_s > time_end (note the strict `>`: the right end
of the window is accepted); otherwise bid fixed_cpc * impression_ctr. -/
def CampaignStaticCPC.get_bid (c : Campaign) (fixed_cpc : ℚ)
    (ioo : ImpressionOnOffer) : Option ℚ :=
  if c.stat.single.spend ≥ c.daily_budget then none
  else if ioo.time_s < c.time_start ∨ ioo.time_s > c.time_end then none
  else some (fixed_cpc * ioo.impression_ctr)

/-- CampaignThrottledStaticCPC.get_bid: decline when spend ≥ budget, when
time_s < time_start or time_s ≥ time_end, or when spend is ahead of the
linear-in-time expected spend; otherwise bid fixed_cpc * impression_ctr. -/
def CampaignThrottledStaticCPC.get_bid (c : Campaign) (fixed_cpc : ℚ)
    (ioo : ImpressionOnOffer) : Option ℚ :=
  if c.stat.single.spend ≥ c.daily_budget then none
  else if ioo.time_s < c.time_start ∨ ioo.time_s ≥ c.time_end then none
  else
    let expected_spend :=
      c.daily_budget * (ioo.time_s - c.time_start) / (c.time_end - c.time_start)
    if c.stat.single.spend ≥ expected_spend then none
    else some (fixed_cpc * ioo.impression_ctr)

/-- CampaignPacedMinCPC.get_bid (src/campaigns.py lines 108-145): the gates,
the first-bid special case, the first-win seeding of the stored EMAs, the
locally decayed EMA values (decayed since `last_win_time`), the conditional
multiplicative increase of output_price clamped by min(2, max(0.1, ·)), and
the update of last_bid_time. Returns the bid and the updated campaign. -/
def CampaignPacedMinCPC.get_bid (expf : ℚ → ℚ) (c : Campaign) (ps : PacingState)
    (ioo : ImpressionOnOffer) : Option ℚ × Campaign :=
  if c.stat.single.spend ≥ c.daily_budget then (none, c)
  else if ioo.time_s < c.time_start ∨ ioo.time_s ≥ c.time_end then (none, c)
  else if ps.last_bid_time = -1 then
    (some ps.output_price,
     { c with ctype := .pacedMinCPC { ps with last_bid_time := ioo.time_s } })
  else
    let remaining_time := c.time_end - ioo.time_s
    let remaining_spend := c.daily_budget - c.stat.single.spend
    let remaining_desired_pace := remaining_spend / remaining_time
    let p_time_diff := ioo.time_s - ps.last_win_time
    let ps1 :=
      if ps.last_win_time < 0 then
        { ps with exp_avg_pace_fast := remaining_desired_pace,
                  exp_avg_pace_slow := remaining_desired_pace }
      else ps
    let exp_avg_pace_slow :=
      ps1.exp_avg_pace_slow + (1 - expf (-(p_time_diff / SLOW_T))) * (-ps1.exp_avg_pace_slow)
    let exp_avg_pace_fast :=
      ps1.exp_avg_pace_fast + (1 - expf (-(p_time_diff / FAST_T))) * (-ps1.exp_avg_pace_fast)
    let ps2 :=
      if exp_avg_pace_slow < remaining_desired_pace ∧
         exp_avg_pace_fast < remaining_desired_pace then
        let proportional := (remaining_desired_pace / exp_avg_pace_slow - 1) / 1 + 1
        let proportional2 := min 2 (max (1/10) proportional)
        { ps1 with output_price := ps1.output_price * proportional2 }
      else ps1
    let ps3 := { ps2 with last_bid_time := ioo.time_s }
    (some ps3.output_price, { c with ctype := .pacedMinCPC ps3 })

/-- Campaign.get_bid dispatch: the base class always returns a 0.0 bid; the
subclasses override it. Returns the bid and the (possibly mutated) campaign. -/
def Campaign.get_bid (expf : ℚ → ℚ) (c : Campaign) (ioo : ImpressionOnOffer) :
    Option ℚ × Campaign :=
  match c.ctype with
  | .base => (some 0, c)
  | .staticCPC cpc => (CampaignStaticCPC.get_bid c cpc ioo, c)
  | .throttledStaticCPC cpc => (CampaignThrottledStaticCPC.get_bid c cpc ioo, c)
  | .pacedMinCPC ps => CampaignPacedMinCPC.get_bid expf c ps ioo

/-- CampaignPacedMinCPC.register_impression (src/campaigns.py lines 149-181):
base Stat bookkeeping first (spend now includes `price`), then the first-win
EMA seeding, the exponential blend of both EMAs toward price / p_time_diff,
the conditional multiplicative decrease of output_price, and last_win_time. -/
def CampaignPacedMinCPC.register_impression (expf : ℚ → ℚ) (c : Campaign)
    (ps : PacingState) (ioo : ImpressionOnOffer) (price : ℚ) : Campaign :=
  let c1 := { c with stat := c.stat.register_impression ioo price }
  let remaining_time := c1.time_end - ioo.time_s
  let remaining_spend := c1.daily_budget - c1.stat.single.spend
  let remaining_desired_pace := remaining_spend / remaining_time
  let ps1 :=
    if ps.last_win_time < 0 then
      { ps with exp_avg_pace_fast := remaining_desired_pace,
                exp_avg_pace_slow := remaining_desired_pace }
    else ps
  let p_time_diff := ioo.time_s - ps1.last_win_time
  let ps2 :=
    { ps1 with
      exp_avg_pace_slow := ps1.exp_avg_pace_slow +
        (1 - expf (-(p_time_diff / SLOW_T))) * (price / p_time_diff - ps1.exp_avg_pace_slow),
      exp_avg_pace_fast := ps1.exp_avg_pace_fast +
        (1 - expf (-(p_time_diff / FAST_T))) * (price / p_time_diff - ps1.exp_avg_pace_fast) }
  let proportional_base := remaining_desired_pace / ps2.exp_avg_pace_fast
  let ps3 :=
    if ps2.exp_avg_pace_fast > remaining_desired_pace then
      let proportional := (proportional_base - 1) / 1 + 1
      let proportional2 := min 2 (max (1/10) proportional)
      { ps2 with output_price := ps2.output_price * proportional2 }
    else ps2
  let ps4 := { ps3 with last_win_time := ioo.time_s }
  { c1 with ctype := .pacedMinCPC ps4 }

/-- Campaign.register_impression dispatch: the base class (and the two static
subclasses, which do not override it) only update the Stat record; the paced
subclass additionally runs its pacing update. -/
def Campaign.register_impression (expf : ℚ → ℚ) (c : Campaign)
    (ioo : ImpressionOnOffer) (price : ℚ) : Campaign :=
  match c.ctype with
  | .pacedMinCPC ps => CampaignPacedMinCPC.register_impression expf c ps ioo price
  | _ => { c with stat := c.stat.register_impression ioo price }

/-- The ephemeral bid triple collected by Simulation.run_one_auction: the
index of the campaign in the roster (standing for the object reference), the
raw bid and the hurdle-adjusted bid. The `actual_ctr` component of the source
tuple only feeds the out-of-scope fractional-click report and is omitted. -/
structure Bid where
  idx : ℕ
  bid : ℚ
  adjusted : ℚ
deriving DecidableEq

instance : Inhabited Bid := ⟨{ idx := 0, bid := 0, adjusted := 0 }⟩

/-- The bid-collection loop of run_one_auction (src/run.py lines 43-48):
every campaign's get_bid runs (mutating paced campaigns), and a bid enters the
list exactly when it is truthy (`if bid:`), i.e. not None and not 0.0.
`k` is the roster index of the first campaign in the list. -/
def collectBids (expf : ℚ → ℚ) (ioo : ImpressionOnOffer) :
    List Campaign → ℕ → List Campaign × List Bid
  | [], _ => ([], [])
  | c :: rest, k =>
      let r := Campaign.get_bid expf c ioo
      let rec' := collectBids expf ioo rest (k + 1)
      match r.1 with
      | some b =>
          if b ≠ 0 then
            (r.2 :: rec'.1, { idx := k, bid := b, adjusted := b * r.2.hurdle } :: rec'.2)
          else (r.2 :: rec'.1, rec'.2)
      | none => (r.2 :: rec'.1, rec'.2)

/-- Stable insertion (descending by the hurdle-adjusted value) of a bid that
originally precedes every element of the list: placed before the first element
whose key is not larger, so equal keys keep their original order — this models
Python's stable `list.sort(key=..., reverse=True)`. -/
def insertBidDesc (b : Bid) : List Bid → List Bid
  | [] => [b]
  | x :: xs => if b.adjusted ≥ x.adjusted then b :: x :: xs else x :: insertBidDesc b xs

/-- Stable descending sort by the hurdle-adjusted value (`bids.sort(key=lambda
t: t[2], reverse=True)` in src/run.py). -/
def sortBidsDesc : List Bid → List Bid
  | [] => []
  | b :: rest => insertBidDesc b (sortBidsDesc rest)

/-- The simulation state touched by run_one_auction: the campaign roster, the
global FullStat, and the per-campaign-type FullStat dictionary (keyed by the
`self.type` string, None for the base class). -/
structure SimState where
  cs : List Campaign
  stat : FullStat
  stat_per_ctype : Option String → FullStat

/-- Simulation.run_one_auction (src/run.py lines 38-67): collect truthy bids,
sort them stably by hurdle-adjusted value descending, and if any survive pick
the top one as winner; under SECOND_PRICE with ≥ 2 bids the winner pays the
second-highest adjusted value divided by its own hurdle, otherwise it pays its
own raw bid; the winner, the global stat and the per-type stat register the
impression at the clearing price. Returns the new state and the auction
outcome (winner roster index and clearing price; `none` models the source's
False return for a no-bid auction). -/
def runOneAuction (expf : ℚ → ℚ) (sp : Bool) (st : SimState)
    (ioo : ImpressionOnOffer) : SimState × Option (ℕ × ℚ) :=
  let cb := collectBids expf ioo st.cs 0
  let cs' := cb.1
  let bids := sortBidsDesc cb.2
  if 0 < bids.length then
    let top := bids.getD 0 default
    let win_c := cs'.getD top.idx default
    let win_bid :=
      if sp then
        if 1 < bids.length then (bids.getD 1 default).adjusted / win_c.hurdle
        else top.bid
      else top.bid
    ({ cs := cs'.set top.idx (Campaign.register_impression expf win_c ioo win_bid),
       stat := st.stat.register_impression ioo win_bid,
       stat_per_ctype := fun t =>
         if t = win_c.ctype.tag then (st.stat_per_ctype t).register_impression ioo win_bid
         else st.stat_per_ctype t },
     some (top.idx, win_bid))
  else ({ st with cs := cs' }, none)

/-- A run over a list of impressions: one auction per impression, in order,
returning the final state and the per-auction outcomes. -/
def runAuctions (expf : ℚ → ℚ) (sp : Bool) :
    List ImpressionOnOffer → SimState → SimState × List (Option (ℕ × ℚ))
  | [], st => (st, [])
  | ioo :: rest, st =>
      let r := runOneAuction expf sp st ioo
      let rr := runAuctions expf sp rest r.1
      (rr.1, r.2 :: rr.2)

/-- The clearing prices paid by campaign `i` along a list of auction
outcomes. -/
def wonPrices (i : ℕ) : List (Option (ℕ × ℚ)) → List ℚ
  | [] => []
  | some (j, p) :: rest => if j = i then p :: wonPrices i rest else wonPrices i rest
  | none :: rest => wonPrices i rest

/-- The campaign methods run_one_auction can invoke on the winning campaign. -/
inductive WinnerCall where
  | register_impression (ioo : ImpressionOnOffer) (price : ℚ) : WinnerCall
  | register_click (ioo : ImpressionOnOffer) : WinnerCall
deriving DecidableEq

/-- The sequence of campaign-method calls run_one_auction performs on the
winning campaign, read off from src/run.py lines 52-67: when a winner exists
it receives exactly one register_impression call at the clearing price
(line 62); no register_click call appears anywhere in run_one_auction. -/
def runOneAuctionWinnerCalls (expf : ℚ → ℚ) (sp : Bool) (st : SimState)
    (ioo : ImpressionOnOffer) : List WinnerCall :=
  match (runOneAuction expf sp st ioo).2 with
  | some (_, p) => [WinnerCall.register_impression ioo p]
  | none => []

/-- Projection of a campaign's pacing state (some only for paced campaigns). -/
def Campaign.pacingState (c : Campaign) : Option PacingState :=
  match c.ctype with
  | .pacedMinCPC ps => some ps
  | _ => none

/-- The get_bid algorithm exactly as claim C1 words it (spec §4.1 steps 3-6):
after the first bid, with budget not exhausted and the impression inside the
window, both stored EMA trackers are decayed toward zero with
Δt = now − last_bid_time, and output_price is multiplied by the clamped factor
exactly when both decayed EMAs are below remaining_desired_pace. Written for
comparison with the source embedding `CampaignPacedMinCPC.get_bid`. -/
def CampaignPacedMinCPC.get_bid_claimC1 (expf : ℚ → ℚ) (c : Campaign)
    (ps : PacingState) (ioo : ImpressionOnOffer) : Option ℚ × Campaign :=
  if c.stat.single.spend ≥ c.daily_budget then (none, c)
  else if ioo.time_s < c.time_start ∨ ioo.time_s ≥ c.time_end then (none, c)
  else if ps.last_bid_time = -1 then
    (some ps.output_price,
     { c with ctype := .pacedMinCPC { ps with last_bid_time := ioo.time_s } })
  else
    let remaining_desired_pace :=
      (c.daily_budget - c.stat.single.spend) / (c.time_end - ioo.time_s)
    let dt := ioo.time_s - ps.last_bid_time
    let slow2 := ps.exp_avg_pace_slow +
      (1 - expf (-(dt / SLOW_T))) * (0 - ps.exp_avg_pace_slow)
    let fast2 := ps.exp_avg_pace_fast +
      (1 - expf (-(dt / FAST_T))) * (0 - ps.exp_avg_pace_fast)
    let ps1 := { ps with exp_avg_pace_slow := slow2, exp_avg_pace_fast := fast2 }
    let ps2 :=
      if slow2 < remaining_desired_pace ∧ fast2 < remaining_desired_pace then
        let factor := min 2 (max (1/10) ((remaining_desired_pace / slow2 - 1) + 1))
        { ps1 with output_price := ps1.output_price * factor }
      else ps1
    (some ps2.output_price,
     { c with ctype := .pacedMinCPC { ps2 with last_bid_time := ioo.time_s } })

/-- The amended description of get_bid (claim C1 corrected to match the
source): Δt is measured from `last_win_time` (not `last_bid_time`), the stored
trackers are first seeded to remaining_desired_pace when no win has occurred
yet and are otherwise left unmodified by get_bid — the decayed values are
local to the call — and the price factor uses the decayed slow EMA. -/
def CampaignPacedMinCPC.get_bid_amendedC1 (expf : ℚ → ℚ) (c : Campaign)
    (ps : PacingState) (ioo : ImpressionOnOffer) : Option ℚ × Campaign :=
  if c.stat.single.spend ≥ c.daily_budget then (none, c)
  else if ioo.time_s < c.time_start ∨ ioo.time_s ≥ c.time_end then (none, c)
  else if ps.last_bid_time = -1 then
    (some ps.output_price,
     { c with ctype := .pacedMinCPC { ps with last_bid_time := ioo.time_s } })
  else
    let remaining_desired_pace :=
      (c.daily_budget - c.stat.single.spend) / (c.time_end - ioo.time_s)
    let dt := ioo.time_s - ps.last_win_time
    let ps1 :=
      if ps.last_win_time < 0 then
        { ps with exp_avg_pace_fast := remaining_desired_pace,
                  exp_avg_pace_slow := remaining_desired_pace }
      else ps
    let slow2 := ps1.exp_avg_pace_slow +
      (1 - expf (-(dt / SLOW_T))) * (0 - ps1.exp_avg_pace_slow)
    let fast2 := ps1.exp_avg_pace_fast +
      (1 - expf (-(dt / FAST_T))) * (0 - ps1.exp_avg_pace_fast)
    let ps2 :=
      if slow2 < remaining_desired_pace ∧ fast2 < remaining_desired_pace then
        let factor := min 2 (max (1/10) ((remaining_desired_pace / slow2 - 1) + 1))
        { ps1 with output_price := ps1.output_price * factor }
      else ps1
    (some ps2.output_price,
     { c with ctype := .pacedMinCPC { ps2 with last_bid_time := ioo.time_s } })

/-- The register_impression algorithm exactly as claim C2 words it (spec §4.1
win steps 1-6), written for comparison with the source embedding
`CampaignPacedMinCPC.register_impression`. -/
def CampaignPacedMinCPC.register_impression_claimC2 (expf : ℚ → ℚ) (c : Campaign)
    (ps : PacingState) (ioo : ImpressionOnOffer) (price : ℚ) : Campaign :=
  let c1 := { c with stat := c.stat.register_impression ioo price }
  let remaining_desired_pace :=
    (c1.daily_budget - c1.stat.single.spend) / (c1.time_end - ioo.time_s)
  let ps1 :=
    if ps.last_win_time < 0 then
      { ps with exp_avg_pace_fast := remaining_desired_pace,
                exp_avg_pace_slow := remaining_desired_pace }
    else ps
  let dt := ioo.time_s - ps1.last_win_time
  let observed := price / dt
  let ps2 :=
    { ps1 with
      exp_avg_pace_slow := ps1.exp_avg_pace_slow +
        (1 - expf (-(dt / SLOW_T))) * (observed - ps1.exp_avg_pace_slow),
      exp_avg_pace_fast := ps1.exp_avg_pace_fast +
        (1 - expf (-(dt / FAST_T))) * (observed - ps1.exp_avg_pace_fast) }
  let ps3 :=
    if ps2.exp_avg_pace_fast > remaining_desired_pace then
      let factor := min 2 (max (1/10) ((remaining_desired_pace / ps2.exp_avg_pace_fast - 1) + 1))
      { ps2 with output_price := ps2.output_price * factor }
    else ps2
  { c1 with ctype := .pacedMinCPC { ps3 with last_win_time := ioo.time_s } }

/-- A concrete computable stand-in for `math.exp` on the rationals: positive
everywhere relevant, equal to 1 at 0, strictly below 1 on negative inputs — the
properties of the exponential the pacing theorems rely on. -/
def expfW : ℚ → ℚ := fun x => 1 / (1 - x)

/-- expfW satisfies the exponential bounds used as hypotheses: on negative
inputs it lies strictly between 0 and 1. -/
theorem expfW_bounds : ∀ x : ℚ, x < 0 → 0 < expfW x ∧ expfW x < 1 := by
  intro x hx
  have h1 : (0:ℚ) < 1 - x := by linarith
  unfold expfW
  constructor
  · exact div_pos one_pos h1
  · rw [div_lt_one h1]
    linarith

/-- Pacing state used by the C1 counterexample: a previous win at t = 100 and
a previous bid at t = 290, both EMA trackers at 1, output_price at 0.1. -/
def psC1 : PacingState :=
  { output_price := 1/10, exp_avg_pace_slow := 1, exp_avg_pace_fast := 1,
    last_win_time := 100, last_bid_time := 290 }

/-- Paced campaign used by the C1 counterexample: budget 100000, spend 25093,
whole-day window, so remaining_desired_pace at t = 300 is 87/100. -/
def cC1 : Campaign :=
  { daily_budget := 100000, hurdle := 1, time_start := 0, time_end := 86400,
    stat := { FullStat.init with
              single := { impressions := 3, spend := 25093, clicks := 0 } },
    ctype := .pacedMinCPC psC1 }

/-- Impression at t = 300 used by the C1 counterexample. -/
def iooC1 : ImpressionOnOffer :=
  { iid := 5, time_s := 300, impression_ctr := 1/2, clicked := false }

/-- Claim C1 (corrected), counterexample: the claim says get_bid decays the
EMAs with Δt = now − last_bid_time. On a state with last_win_time = 100,
last_bid_time = 290, both EMAs = 1 and remaining_desired_pace = 87/100 at
now = 300 (budget not exhausted, inside the window, not the first bid), the
source's get_bid decays from the last win (Δt = 200), finds both decayed EMAs
below the desired pace and raises output_price to 261/2500, while the claim's
algorithm decays from the last bid (Δt = 10), finds the slow EMA above the
desired pace and leaves output_price at 1/10. The two outputs differ. -/
theorem paced_get_bid_claimC1_false :
    (CampaignPacedMinCPC.get_bid expfW cC1 psC1 iooC1).1 = some (261/2500) ∧
    (CampaignPacedMinCPC.get_bid_claimC1 expfW cC1 psC1 iooC1).1 = some (1/10) ∧
    (261/2500 : ℚ) ≠ 1/10 := by
  refine ⟨?_, ?_, by norm_num⟩
  · norm_num [CampaignPacedMinCPC.get_bid, SLOW_T, FAST_T, expfW, psC1, cC1,
      iooC1, min_def, max_def]
  · norm_num [CampaignPacedMinCPC.get_bid_claimC1, SLOW_T, FAST_T, expfW, psC1,
      cC1, iooC1, min_def, max_def]

/-- Claim C1 (amended): on every get_bid call after the first bid, with budget
not exhausted and the impression inside the half-open window, the stored EMA
trackers are first seeded to remaining_desired_pace if no win has occurred
yet; both are then decayed toward zero via ema + (1 − e^(−Δt/τ))·(0 − ema)
with Δt = now − last_win_time (τ_slow and τ_fast respectively) into local
values (the stored trackers are not otherwise modified); output_price is
multiplied by (remaining_desired_pace / decayed_slow − 1) + 1 clamped to
[0.1, 2.0] exactly when both decayed values are below remaining_desired_pace
and left unchanged otherwise; last_bid_time is set to now and output_price is
returned. The source embedding equals this description on every input. -/
theorem paced_get_bid_matches_amended_description (expf : ℚ → ℚ) (c : Campaign)
    (ps : PacingState) (ioo : ImpressionOnOffer) :
    CampaignPacedMinCPC.get_bid expf c ps ioo =
      CampaignPacedMinCPC.get_bid_amendedC1 expf c ps ioo := by
  unfold CampaignPacedMinCPC.get_bid CampaignPacedMinCPC.get_bid_amendedC1
  simp only [div_one, zero_sub]

/-- Claim C2 (confirmed): register_impression updates the base Stat
bookkeeping, seeds both EMAs to remaining_desired_pace on the first-ever win,
updates both EMAs toward the observed rate price / (now − last_win_time) with
coefficient 1 − e^(−Δt/τ), multiplies output_price by
(remaining_desired_pace / ema_fast − 1) + 1 clamped to [0.1, 2.0] exactly when
the updated ema_fast exceeds remaining_desired_pace, and finally sets
last_win_time = now. The source embedding equals this description on every
input. -/
theorem paced_register_impression_matches_claim (expf : ℚ → ℚ) (c : Campaign)
    (ps : PacingState) (ioo : ImpressionOnOffer) (price : ℚ) :
    CampaignPacedMinCPC.register_impression expf c ps ioo price =
      CampaignPacedMinCPC.register_impression_claimC2 expf c ps ioo price := by
  unfold CampaignPacedMinCPC.register_impression
    CampaignPacedMinCPC.register_impression_claimC2
  simp only [div_one]

/-- The spend counter after FullStat.register_impression: spend grows by
exactly the price (the click branch does not touch spend). -/
theorem FullStat.register_impression_spend (st : FullStat) (ioo : ImpressionOnOffer) (price : ℚ) :
    (st.register_impression ioo price).single.spend = st.single.spend + price := by
  unfold FullStat.register_impression
  split <;> rfl

/-- The aggregate click counter after FullStat.register_impression grows by 1
exactly when the impression was clicked. -/
theorem FullStat.register_impression_clicks (st : FullStat) (ioo : ImpressionOnOffer) (price : ℚ) :
    (st.register_impression ioo price).single.clicks =
      st.single.clicks + (if ioo.clicked then 1 else 0) := by
  unfold FullStat.register_impression
  split <;> simp [IndividualStat.register_click, IndividualStat.register_impression]

/-- The hourly click counter of the impression's bucket after
FullStat.register_impression grows by 1 exactly when the impression was
clicked. -/
theorem FullStat.register_impression_hour_clicks (st : FullStat) (ioo : ImpressionOnOffer)
    (price : ℚ) :
    ((st.register_impression ioo price).hours ⌊ioo.time_s / (60 * 60)⌋).clicks =
      (st.hours ⌊ioo.time_s / (60 * 60)⌋).clicks + (if ioo.clicked then 1 else 0) := by
  unfold FullStat.register_impression
  split <;> simp [IndividualStat.register_click, IndividualStat.register_impression]

/-- Every strategy's register_impression updates its Stat record exactly by
FullStat.register_impression. -/
theorem Campaign.register_impression_stat (expf : ℚ → ℚ) (c : Campaign)
    (ioo : ImpressionOnOffer) (price : ℚ) :
    (Campaign.register_impression expf c ioo price).stat =
      c.stat.register_impression ioo price := by
  unfold Campaign.register_impression
  split
  · rfl
  · rfl

/-- register_impression never changes the daily budget. -/
theorem Campaign.register_impression_budget (expf : ℚ → ℚ) (c : Campaign)
    (ioo : ImpressionOnOffer) (price : ℚ) :
    (Campaign.register_impression expf c ioo price).daily_budget = c.daily_budget := by
  unfold Campaign.register_impression
  split <;> rfl

/-- get_bid never changes the campaign's Stat record. -/
theorem Campaign.get_bid_snd_stat (expf : ℚ → ℚ) (c : Campaign) (ioo : ImpressionOnOffer) :
    (Campaign.get_bid expf c ioo).2.stat = c.stat := by
  unfold Campaign.get_bid
  split
  · rfl
  · rfl
  · rfl
  · unfold CampaignPacedMinCPC.get_bid
    split_ifs <;> rfl

/-- get_bid never changes the campaign's daily budget. -/
theorem Campaign.get_bid_snd_budget (expf : ℚ → ℚ) (c : Campaign) (ioo : ImpressionOnOffer) :
    (Campaign.get_bid expf c ioo).2.daily_budget = c.daily_budget := by
  unfold Campaign.get_bid
  split
  · rfl
  · rfl
  · rfl
  · unfold CampaignPacedMinCPC.get_bid
    split_ifs <;> rfl

/-- get_bid never changes the campaign's hurdle. -/
theorem Campaign.get_bid_snd_hurdle (expf : ℚ → ℚ) (c : Campaign) (ioo : ImpressionOnOffer) :
    (Campaign.get_bid expf c ioo).2.hurdle = c.hurdle := by
  unfold Campaign.get_bid
  split
  · rfl
  · rfl
  · rfl
  · unfold CampaignPacedMinCPC.get_bid
    split_ifs <;> rfl

/-- A non-zero bid can only be produced while spend is strictly below the
daily budget: the base class only ever bids 0, and every subclass declines
first thing when spend ≥ budget. -/
theorem Campaign.get_bid_some_spend_lt (expf : ℚ → ℚ) (c : Campaign) (ioo : ImpressionOnOffer)
    (b : ℚ) (hb : (Campaign.get_bid expf c ioo).1 = some b) (hb0 : b ≠ 0) :
    c.stat.single.spend < c.daily_budget := by
  unfold Campaign.get_bid at hb
  rcases hc : c.ctype with _ | cpc | cpc | ps <;> rw [hc] at hb <;> simp only at hb
  · exact absurd (by injection hb with h; exact h.symm) hb0
  · unfold CampaignStaticCPC.get_bid at hb
    split_ifs at hb with h1 h2
    exact lt_of_not_ge h1
  · unfold CampaignThrottledStaticCPC.get_bid at hb
    split_ifs at hb with h1 h2 _h3
    exact lt_of_not_ge h1
  · unfold CampaignPacedMinCPC.get_bid at hb
    split_ifs at hb with h1 h2 <;> exact lt_of_not_ge h1

/-- The base Campaign's get_bid is the constant 0.0 bid with no state
change and no window or budget check. -/
theorem Campaign.get_bid_base (expf : ℚ → ℚ) (c : Campaign) (ioo : ImpressionOnOffer)
    (hc : c.ctype = .base) : Campaign.get_bid expf c ioo = (some 0, c) := by
  unfold Campaign.get_bid
  rw [hc]

/-- The campaign-list component of collectBids: every campaign is replaced by
its get_bid-updated self, in order. -/
theorem collectBids_fst (expf : ℚ → ℚ) (ioo : ImpressionOnOffer) :
    ∀ (cs : List Campaign) (k : ℕ),
    (collectBids expf ioo cs k).1 = cs.map (fun c => (Campaign.get_bid expf c ioo).2) := by
  intro cs
  induction cs with
  | nil => intro k; rfl
  | cons c rest ih =>
    intro k
    unfold collectBids
    rcases h : (Campaign.get_bid expf c ioo).1 with _ | b
    · simp [h, ih]
    · simp only [h]
      split_ifs <;> simp [ih]

/-- Every collected bid corresponds to a roster campaign whose get_bid
returned exactly that non-zero price, with the adjusted value equal to
bid * hurdle. -/
theorem collectBids_mem (expf : ℚ → ℚ) (ioo : ImpressionOnOffer) :
    ∀ (cs : List Campaign) (k : ℕ) (b : Bid), b ∈ (collectBids expf ioo cs k).2 →
    ∃ j c, b.idx = k + j ∧ cs[j]? = some c ∧
      (Campaign.get_bid expf c ioo).1 = some b.bid ∧ b.bid ≠ 0 ∧
      b.adjusted = b.bid * c.hurdle := by
  intro cs
  induction cs with
  | nil => intro k b hb; simp [collectBids] at hb
  | cons c rest ih =>
    intro k b hb
    unfold collectBids at hb
    rcases h : (Campaign.get_bid expf c ioo).1 with _ | bb <;> simp only [h] at hb
    · rcases ih (k + 1) b hb with ⟨j, c', hidx, hget, hbid, hb0, hadj⟩
      exact ⟨j + 1, c', by omega, by simpa using hget, hbid, hb0, hadj⟩
    · split_ifs at hb with hbb
      · rcases List.mem_cons.mp hb with rfl | hb'
        · refine ⟨0, c, by simp, by simp, by simpa using h, by simpa using hbb, ?_⟩
          simp [Campaign.get_bid_snd_hurdle]
        · rcases ih (k + 1) b hb' with ⟨j, c', hidx, hget, hbid, hb0, hadj⟩
          exact ⟨j + 1, c', by omega, by simpa using hget, hbid, hb0, hadj⟩
      · rcases ih (k + 1) b hb with ⟨j, c', hidx, hget, hbid, hb0, hadj⟩
        exact ⟨j + 1, c', by omega, by simpa using hget, hbid, hb0, hadj⟩

/-- Insertion produces no new elements. -/
theorem mem_of_mem_insertBidDesc (b x : Bid) :
    ∀ (l : List Bid), x ∈ insertBidDesc b l → x = b ∨ x ∈ l := by
  intro l
  induction l with
  | nil => intro h; simp [insertBidDesc] at h; exact Or.inl h
  | cons y ys ih =>
    intro h
    unfold insertBidDesc at h
    split_ifs at h
    · rcases List.mem_cons.mp h with rfl | h'
      · exact Or.inl rfl
      · exact Or.inr h'
    · rcases List.mem_cons.mp h with rfl | h'
      · exact Or.inr (List.mem_cons_self _ _)
      · rcases ih h' with rfl | h2
        · exact Or.inl rfl
        · exact Or.inr (List.mem_cons_of_mem _ h2)

/-- Sorting produces no new elements. -/
theorem mem_of_mem_sortBidsDesc (x : Bid) :
    ∀ (l : List Bid), x ∈ sortBidsDesc l → x ∈ l := by
  intro l
  induction l with
  | nil => intro h; simp [sortBidsDesc] at h
  | cons y ys ih =>
    intro h
    unfold sortBidsDesc at h
    rcases mem_of_mem_insertBidDesc y x _ h with rfl | h'
    · exact List.mem_cons_self _ _
    · exact List.mem_cons_of_mem _ (ih h')

/-- Only the empty bid list sorts to the empty list. -/
theorem sortBidsDesc_eq_nil (l : List Bid) (h : sortBidsDesc l = []) : l = [] := by
  cases l with
  | nil => rfl
  | cons b rest =>
    exfalso
    unfold sortBidsDesc at h
    rcases hr : sortBidsDesc rest with _ | ⟨t, ts⟩
    · rw [hr] at h
      unfold insertBidDesc at h
      exact List.cons_ne_nil _ _ h
    · rw [hr] at h
      unfold insertBidDesc at h
      split_ifs at h <;> exact List.cons_ne_nil _ _ h

/-- Head of the stable descending sort: the top-ranked bid is the first
element of the original list attaining the maximal hurdle-adjusted value —
all earlier elements are strictly smaller, all elements are no larger. -/
theorem sortBidsDesc_head_first_max :
    ∀ (l : List Bid) (top : Bid) (rest : List Bid), sortBidsDesc l = top :: rest →
    (∃ pre post, l = pre ++ top :: post ∧ ∀ b ∈ pre, b.adjusted < top.adjusted) ∧
    ∀ b ∈ l, b.adjusted ≤ top.adjusted := by
  intro l
  induction l with
  | nil => intro top rest h; simp [sortBidsDesc] at h
  | cons x xs ih =>
    intro top rest h
    unfold sortBidsDesc at h
    rcases hs : sortBidsDesc xs with _ | ⟨t, ts⟩ <;> rw [hs] at h
    · have hxs : xs = [] := sortBidsDesc_eq_nil _ hs
      unfold insertBidDesc at h
      injection h with h1 h2
      subst h1
      subst hxs
      refine ⟨⟨[], [], by simp, by simp⟩, ?_⟩
      intro b hb
      rcases List.mem_singleton.mp hb with rfl
      exact le_refl _
    · rcases ih t ts hs with ⟨⟨pre, post, hxseq, hpre⟩, hmax⟩
      unfold insertBidDesc at h
      split_ifs at h with hc
      · injection h with h1 h2
        subst h1
        refine ⟨⟨[], xs, by simp, by simp⟩, ?_⟩
        intro b hb
        rcases List.mem_cons.mp hb with rfl | hb'
        · exact le_refl _
        · exact le_trans (hmax b hb') hc
      · injection h with h1 h2
        subst h1
        refine ⟨⟨x :: pre, post, by simp [hxseq], ?_⟩, ?_⟩
        · intro b hb
          rcases List.mem_cons.mp hb with rfl | hb'
          · exact lt_of_not_ge hc
          · exact hpre b hb'
        · intro b hb
          rcases List.mem_cons.mp hb with rfl | hb'
          · exact le_of_lt (lt_of_not_ge hc)
          · exact hmax b hb'

/-- One auction, seen from a fixed roster position i: either campaign i is
not the winner and its state is exactly its get_bid-updated self, or it is the
winner: its get_bid produced a non-zero bid, the outcome records (i, p) for
the clearing price p, and its new state is its get_bid-updated self after
register_impression at price p. -/
theorem runOneAuction_step (expf : ℚ → ℚ) (sp : Bool) (st : SimState)
    (ioo : ImpressionOnOffer) (i : ℕ) (c0 : Campaign) (h : st.cs[i]? = some c0) :
    ((runOneAuction expf sp st ioo).1.cs[i]? = some (Campaign.get_bid expf c0 ioo).2 ∧
       ∀ p, (runOneAuction expf sp st ioo).2 ≠ some (i, p)) ∨
    (∃ p b, (runOneAuction expf sp st ioo).2 = some (i, p) ∧
       (Campaign.get_bid expf c0 ioo).1 = some b ∧ b ≠ 0 ∧
       (runOneAuction expf sp st ioo).1.cs[i]? =
         some (Campaign.register_impression expf (Campaign.get_bid expf c0 ioo).2 ioo p)) := by
  have hcs' : (collectBids expf ioo st.cs 0).1 =
      st.cs.map (fun c => (Campaign.get_bid expf c ioo).2) := collectBids_fst expf ioo st.cs 0
  rcases hsort : sortBidsDesc (collectBids expf ioo st.cs 0).2 with _ | ⟨top, rest⟩
  · left
    simp only [runOneAuction, hsort, List.length_nil, Nat.lt_irrefl, if_false]
    constructor
    · rw [hcs', List.getElem?_map, h]
      rfl
    · intro p hp
      exact Option.noConfusion hp
  · have htopmem : top ∈ (collectBids expf ioo st.cs 0).2 :=
      mem_of_mem_sortBidsDesc _ _ (hsort ▸ List.mem_cons_self _ _)
    rcases collectBids_mem expf ioo st.cs 0 top htopmem with
      ⟨j, c, hidx, hget, hbid, hb0, hadj⟩
    rw [Nat.zero_add] at hidx
    subst hidx
    have hlen : top.idx < st.cs.length := (List.getElem?_eq_some_iff.mp hget).1
    have hwin : (collectBids expf ioo st.cs 0).1.getD top.idx default =
        (Campaign.get_bid expf c ioo).2 := by
      rw [List.getD_eq_getElem?_getD, hcs', List.getElem?_map, hget]
      rfl
    by_cases hi : i = top.idx
    · subst hi
      have hc : c = c0 := by rw [hget] at h; injection h
      subst hc
      right
      refine ⟨?_, top.bid, ?_, hbid, hb0, ?_⟩
      · exact if sp then (if 1 < (top :: rest).length
          then ((top :: rest).getD 1 default).adjusted /
            ((collectBids expf ioo st.cs 0).1.getD top.idx default).hurdle
          else top.bid) else top.bid
      · simp only [runOneAuction, hsort, List.length_cons, Nat.zero_lt_succ, if_true,
          List.getD_cons_zero]
      · simp only [runOneAuction, hsort, List.length_cons, Nat.zero_lt_succ, if_true,
          List.getD_cons_zero, hwin]
        rw [List.getElem?_set_self]
        rw [hcs', List.length_map]
        exact hlen
    · left
      constructor
      · simp only [runOneAuction, hsort, List.length_cons, Nat.zero_lt_succ, if_true,
          List.getD_cons_zero]
        rw [List.getElem?_set_ne (by omega)]
        rw [hcs', List.getElem?_map, h]
        rfl
      · intro p hp
        simp only [runOneAuction, hsort, List.length_cons, Nat.zero_lt_succ, if_true,
          List.getD_cons_zero] at hp
        injection hp with hp1
        injection hp1 with hpa hpb
        exact hi hpa.symm

/-- Prepending an auction outcome preserves membership in a campaign's won
prices. -/
theorem wonPrices_cons_mem (i : ℕ) (q : ℚ) (o : Option (ℕ × ℚ))
    (outs : List (Option (ℕ × ℚ))) (h : q ∈ wonPrices i outs) :
    q ∈ wonPrices i (o :: outs) := by
  rcases o with _ | ⟨j, p⟩
  · exact h
  · by_cases hj : j = i
    · simp [wonPrices, hj, h]
    · simp [wonPrices, hj, h]

/-- Run-level budget invariant, strengthened for induction with an
accumulator of already-paid crossing prices: if a campaign starts below
budget (or already within one accumulated price of it), it ends below budget
or within one of its clearing prices of it. -/
theorem runAuctions_budget_aux (expf : ℚ → ℚ) (sp : Bool) :
    ∀ (ioos : List ImpressionOnOffer) (st : SimState) (i : ℕ) (c0 : Campaign)
      (acc : List ℚ), st.cs[i]? = some c0 →
    (c0.stat.single.spend < c0.daily_budget ∨
      ∃ q ∈ acc, c0.stat.single.spend < c0.daily_budget + q) →
    ∃ cF, (runAuctions expf sp ioos st).1.cs[i]? = some cF ∧
      cF.daily_budget = c0.daily_budget ∧
      (cF.stat.single.spend < c0.daily_budget ∨
        ∃ q, (q ∈ acc ∨ q ∈ wonPrices i (runAuctions expf sp ioos st).2) ∧
          cF.stat.single.spend < c0.daily_budget + q) := by
  intro ioos
  induction ioos with
  | nil =>
    intro st i c0 acc h hinv
    refine ⟨c0, h, rfl, ?_⟩
    rcases hinv with h1 | ⟨q, hq, h2⟩
    · exact Or.inl h1
    · exact Or.inr ⟨q, Or.inl hq, h2⟩
  | cons ioo rest ih =>
    intro st i c0 acc h hinv
    have hrun : runAuctions expf sp (ioo :: rest) st =
        ((runAuctions expf sp rest (runOneAuction expf sp st ioo).1).1,
         (runOneAuction expf sp st ioo).2 ::
           (runAuctions expf sp rest (runOneAuction expf sp st ioo).1).2) := rfl
    rcases runOneAuction_step expf sp st ioo i c0 h with
      ⟨hg, hnw⟩ | ⟨p, b, hout, hbid, hb0, hg⟩
    · -- not winner: state is get_bid-updated, spend and budget unchanged
      have hspend : (Campaign.get_bid expf c0 ioo).2.stat.single.spend
          = c0.stat.single.spend := by rw [Campaign.get_bid_snd_stat]
      have hbud : (Campaign.get_bid expf c0 ioo).2.daily_budget = c0.daily_budget :=
        Campaign.get_bid_snd_budget expf c0 ioo
      have hinv' : (Campaign.get_bid expf c0 ioo).2.stat.single.spend <
            (Campaign.get_bid expf c0 ioo).2.daily_budget ∨
          ∃ q ∈ acc, (Campaign.get_bid expf c0 ioo).2.stat.single.spend <
            (Campaign.get_bid expf c0 ioo).2.daily_budget + q := by
        rw [hspend, hbud]; exact hinv
      rcases ih (runOneAuction expf sp st ioo).1 i _ acc hg hinv' with
        ⟨cF, hF, hFb, hFinv⟩
      refine ⟨cF, by rw [hrun]; exact hF, by rw [hFb, hbud], ?_⟩
      rw [hbud] at hFinv
      rcases hFinv with h1 | ⟨q, hq, h2⟩
      · exact Or.inl h1
      · refine Or.inr ⟨q, ?_, h2⟩
        rcases hq with hq | hq
        · exact Or.inl hq
        · rw [hrun]
          exact Or.inr (wonPrices_cons_mem i q _ _ hq)
    · -- winner at price p
      have hpre : c0.stat.single.spend < c0.daily_budget :=
        Campaign.get_bid_some_spend_lt expf c0 ioo b hbid hb0
      have hspend : (Campaign.register_impression expf (Campaign.get_bid expf c0 ioo).2
            ioo p).stat.single.spend = c0.stat.single.spend + p := by
        rw [Campaign.register_impression_stat, FullStat.register_impression_spend,
          Campaign.get_bid_snd_stat]
      have hbud : (Campaign.register_impression expf (Campaign.get_bid expf c0 ioo).2
            ioo p).daily_budget = c0.daily_budget := by
        rw [Campaign.register_impression_budget, Campaign.get_bid_snd_budget]
      have hinv' : (Campaign.register_impression expf (Campaign.get_bid expf c0 ioo).2
            ioo p).stat.single.spend <
            (Campaign.register_impression expf (Campaign.get_bid expf c0 ioo).2
              ioo p).daily_budget ∨
          ∃ q ∈ (p :: acc), (Campaign.register_impression expf
              (Campaign.get_bid expf c0 ioo).2 ioo p).stat.single.spend <
            (Campaign.register_impression expf (Campaign.get_bid expf c0 ioo).2
              ioo p).daily_budget + q := by
        rw [hspend, hbud]
        exact Or.inr ⟨p, List.mem_cons_self _ _, by linarith⟩
      rcases ih (runOneAuction expf sp st ioo).1 i _ (p :: acc) hg hinv' with
        ⟨cF, hF, hFb, hFinv⟩
      refine ⟨cF, by rw [hrun]; exact hF, by rw [hFb, hbud], ?_⟩
      rw [hbud] at hFinv
      rcases hFinv with h1 | ⟨q, hq, h2⟩
      · exact Or.inl h1
      · refine Or.inr ⟨q, ?_, h2⟩
        rcases hq with hq | hq
        · rcases List.mem_cons.mp hq with rfl | hq'
          · right
            rw [hrun, hout]
            simp [wonPrices]
          · exact Or.inl hq'
        · right
          rw [hrun]
          exact wonPrices_cons_mem i q _ _ hq

/-- CampaignStaticCPC.__init__. -/
def CampaignStaticCPC.init (cpc daily_budget : ℚ)
    (hurdle time_start time_end : Option ℚ) : Campaign :=
  Campaign.init daily_budget hurdle time_start time_end (.staticCPC cpc)

/-- CampaignThrottledStaticCPC.__init__. -/
def CampaignThrottledStaticCPC.init (cpc daily_budget : ℚ)
    (hurdle time_start time_end : Option ℚ) : Campaign :=
  Campaign.init daily_budget hurdle time_start time_end (.throttledStaticCPC cpc)

/-- A fresh simulation state over a roster, as Simulation.__init__/run set it
up: fresh global and per-type statistics. -/
def mkSimState (cs : List Campaign) : SimState :=
  { cs := cs, stat := FullStat.init, stat_per_ctype := fun _ => FullStat.init }

/-- Three static campaigns with cpc 10, 6, 2 (all hurdle 1, budget 100): at
CTR 1/2 they bid 5, 3, 1. -/
def stC3 : SimState :=
  mkSimState [CampaignStaticCPC.init 10 100 (some 1) none none,
              CampaignStaticCPC.init 6 100 (some 1) none none,
              CampaignStaticCPC.init 2 100 (some 1) none none]

/-- An unclicked impression at t = 1000 with CTR 1/2. -/
def iooC3 : ImpressionOnOffer :=
  { iid := 0, time_s := 1000, impression_ctr := 1/2, clicked := false }

/-- Claim C4 (confirmed): along any run, a campaign that starts with spend
below its daily budget ends every prefix either still below budget or within
one of its own clearing prices of it — spend never exceeds daily_budget by
more than the single clearing price of the auction that crossed it (the
budget check happens in get_bid, before the auction; only a won auction's
clearing price increases spend). The statement quantifies over all impression
lists, hence over every prefix of a run. -/
theorem budget_overspend_bounded_by_one_clearing_price (expf : ℚ → ℚ) (sp : Bool)
    (ioos : List ImpressionOnOffer) (st : SimState) (i : ℕ) (c0 : Campaign)
    (h : st.cs[i]? = some c0)
    (h0 : c0.stat.single.spend < c0.daily_budget) :
    ∃ cF, (runAuctions expf sp ioos st).1.cs[i]? = some cF ∧
      cF.daily_budget = c0.daily_budget ∧
      (cF.stat.single.spend ≤ c0.daily_budget ∨
        ∃ q ∈ wonPrices i (runAuctions expf sp ioos st).2,
          cF.stat.single.spend < c0.daily_budget + q) := by
  rcases runAuctions_budget_aux expf sp ioos st i c0 [] h (Or.inl h0) with
    ⟨cF, hF, hFb, hFi⟩
  refine ⟨cF, hF, hFb, ?_⟩
  rcases hFi with h1 | ⟨q, hq, h2⟩
  · exact Or.inl (le_of_lt h1)
  · rcases hq with hq | hq
    · simp at hq
    · exact Or.inr ⟨q, hq, h2⟩

/-- Witness for C4: the concrete one-auction run of the three-static-campaign
roster, instantiating the budget bound for the winning campaign. -/
theorem budget_overspend_bounded_witness :
    ∃ cF, (runAuctions expfW false [iooC3] stC3).1.cs[0]? = some cF ∧
      cF.daily_budget = (CampaignStaticCPC.init 10 100 (some 1) none none).daily_budget ∧
      (cF.stat.single.spend ≤ (CampaignStaticCPC.init 10 100 (some 1) none none).daily_budget ∨
        ∃ q ∈ wonPrices 0 (runAuctions expfW false [iooC3] stC3).2,
          cF.stat.single.spend <
            (CampaignStaticCPC.init 10 100 (some 1) none none).daily_budget + q) :=
  budget_overspend_bounded_by_one_clearing_price expfW false [iooC3] stC3 0
    (CampaignStaticCPC.init 10 100 (some 1) none none) (by rfl)
    (by norm_num [CampaignStaticCPC.init, Campaign.init, FullStat.init, IndividualStat.init])

/-- A base-class campaign never changes along any run: its 0.0 bid is always
excluded, so it never wins and is never registered. -/
theorem runAuctions_base_fixed (expf : ℚ → ℚ) (sp : Bool) :
    ∀ (ioos : List ImpressionOnOffer) (st : SimState) (i : ℕ) (c0 : Campaign),
    st.cs[i]? = some c0 → c0.ctype = .base →
    (runAuctions expf sp ioos st).1.cs[i]? = some c0 := by
  intro ioos
  induction ioos with
  | nil => intro st i c0 h hb; exact h
  | cons ioo rest ih =>
    intro st i c0 h hbase
    have hgb : Campaign.get_bid expf c0 ioo = (some 0, c0) :=
      Campaign.get_bid_base expf c0 ioo hbase
    rcases runOneAuction_step expf sp st ioo i c0 h with
      ⟨hg, _⟩ | ⟨p, b, _, hbid, hb0, _⟩
    · rw [hgb] at hg
      exact ih (runOneAuction expf sp st ioo).1 i c0 hg hbase
    · rw [hgb] at hbid
      exact absurd (by injection hbid with hh; exact hh.symm) hb0

/-- Claim C10 (confirmed): a 0.0 get_bid return is excluded from the auction
exactly as a decline — only non-zero, non-None bids are collected — and the
base Campaign, whose get_bid always returns 0.0 with no state change, never
wins, accrues spend, or affects any statistics: its whole state is unchanged
by any run. -/
theorem zero_bid_excluded_and_base_inert :
    (∀ (expf : ℚ → ℚ) (ioo : ImpressionOnOffer) (cs : List Campaign) (k : ℕ) (b : Bid),
       b ∈ (collectBids expf ioo cs k).2 → b.bid ≠ 0) ∧
    (∀ (expf : ℚ → ℚ) (c : Campaign) (ioo : ImpressionOnOffer),
       c.ctype = .base → Campaign.get_bid expf c ioo = (some 0, c)) ∧
    (∀ (expf : ℚ → ℚ) (sp : Bool) (ioos : List ImpressionOnOffer) (st : SimState)
       (i : ℕ) (c0 : Campaign), st.cs[i]? = some c0 → c0.ctype = .base →
       (runAuctions expf sp ioos st).1.cs[i]? = some c0) := by
  refine ⟨?_, ?_, ?_⟩
  · intro expf ioo cs k b hb
    rcases collectBids_mem expf ioo cs k b hb with ⟨j, c, _, _, _, hb0, _⟩
    exact hb0
  · exact Campaign.get_bid_base
  · exact runAuctions_base_fixed

/-- A base-class campaign fixture. -/
def cBase : Campaign :=
  { daily_budget := 5, hurdle := 1, time_start := 0, time_end := 86400,
    stat := FullStat.init, ctype := .base }

/-- Witness for C10: a run of one auction over a roster holding the base
campaign and a static campaign leaves the base campaign untouched (and its
zero bid out of the collected list). -/
theorem zero_bid_excluded_and_base_inert_witness :
    ((⟨0, 5, 5⟩ : Bid) ∈ (collectBids expfW iooC3 stC3.cs 0).2 ∧ (5:ℚ) ≠ 0) ∧
    (runAuctions expfW false [iooC3]
        (mkSimState [cBase, CampaignStaticCPC.init 10 100 (some 1) none none])).1.cs[0]? =
      some cBase := by
  constructor
  · have hmem : (⟨0, 5, 5⟩ : Bid) ∈ (collectBids expfW iooC3 stC3.cs 0).2 := by
      norm_num [collectBids, stC3, mkSimState, iooC3, CampaignStaticCPC.init,
        Campaign.init, orDefault, FullStat.init, IndividualStat.init, Campaign.get_bid,
        CampaignStaticCPC.get_bid]
    exact ⟨hmem, zero_bid_excluded_and_base_inert.1 expfW iooC3 stC3.cs 0 _ hmem⟩
  · exact zero_bid_excluded_and_base_inert.2.2 expfW false [iooC3] _ 0 cBase (by rfl) (by rfl)

/-- Claim C3 (confirmed): run_one_auction resolves the clearing price by the
configured pricing rule. Under second price with at least two surviving bids
the winner pays (second-highest hurdle-adjusted price) / winner's hurdle; with
exactly one surviving bid it pays its own raw bid; under first price the
winner always pays its own raw bid. Concretely, for three bids with
hurdle-adjusted prices [5, 3, 1] and all hurdles 1, the winner pays exactly 3
under second price and 5 under first price. -/
theorem auction_clearing_price_rule :
    (∀ (expf : ℚ → ℚ) (st : SimState) (ioo : ImpressionOnOffer) (top second : Bid)
       (rest : List Bid),
       sortBidsDesc (collectBids expf ioo st.cs 0).2 = top :: second :: rest →
       ∃ wc, st.cs[top.idx]? = some wc ∧
         (runOneAuction expf true st ioo).2 =
           some (top.idx, second.adjusted / wc.hurdle)) ∧
    (∀ (expf : ℚ → ℚ) (st : SimState) (ioo : ImpressionOnOffer) (top : Bid),
       sortBidsDesc (collectBids expf ioo st.cs 0).2 = [top] →
       (runOneAuction expf true st ioo).2 = some (top.idx, top.bid)) ∧
    (∀ (expf : ℚ → ℚ) (st : SimState) (ioo : ImpressionOnOffer) (top : Bid)
       (rest : List Bid),
       sortBidsDesc (collectBids expf ioo st.cs 0).2 = top :: rest →
       (runOneAuction expf false st ioo).2 = some (top.idx, top.bid)) ∧
    ((runOneAuction expfW true stC3 iooC3).2 = some (0, 3) ∧
     (runOneAuction expfW false stC3 iooC3).2 = some (0, 5)) := by
  refine ⟨?_, ?_, ?_, ?_, ?_⟩
  · intro expf st ioo top second rest hsort
    have htopmem : top ∈ (collectBids expf ioo st.cs 0).2 :=
      mem_of_mem_sortBidsDesc _ _ (hsort ▸ List.mem_cons_self _ _)
    rcases collectBids_mem expf ioo st.cs 0 top htopmem with
      ⟨j, c, hidx, hget, hbid, hb0, hadj⟩
    rw [Nat.zero_add] at hidx
    subst hidx
    refine ⟨c, hget, ?_⟩
    have h2 : 1 < rest.length + 1 + 1 := by omega
    simp [runOneAuction, hsort, h2, collectBids_fst, List.getElem?_map, hget,
      Campaign.get_bid_snd_hurdle]
  · intro expf st ioo top hsort
    simp [runOneAuction, hsort]
  · intro expf st ioo top rest hsort
    simp [runOneAuction, hsort]
  · norm_num [runOneAuction, collectBids, sortBidsDesc, insertBidDesc, Campaign.get_bid,
      CampaignStaticCPC.get_bid, CampaignStaticCPC.init, Campaign.init, orDefault,
      mkSimState, stC3, iooC3, FullStat.init, IndividualStat.init]
  · norm_num [runOneAuction, collectBids, sortBidsDesc, insertBidDesc, Campaign.get_bid,
      CampaignStaticCPC.get_bid, CampaignStaticCPC.init, Campaign.init, orDefault,
      mkSimState, stC3, iooC3, FullStat.init, IndividualStat.init]

/-- Two static campaigns bidding 5 and 3 (hurdles 1). -/
def stC3b : SimState :=
  mkSimState [CampaignStaticCPC.init 10 100 (some 1) none none,
              CampaignStaticCPC.init 6 100 (some 1) none none]

/-- Witness for C3: the second-price rule applied at a concrete two-bid
auction (bids 5 and 3, hurdles 1): the winner is campaign 0 and pays 3. -/
theorem auction_clearing_price_rule_witness :
    ∃ wc, stC3b.cs[(⟨0, 5, 5⟩ : Bid).idx]? = some wc ∧
      (runOneAuction expfW true stC3b iooC3).2 =
        some ((⟨0, 5, 5⟩ : Bid).idx, (⟨1, 3, 3⟩ : Bid).adjusted / wc.hurdle) :=
  auction_clearing_price_rule.1 expfW stC3b iooC3 ⟨0, 5, 5⟩ ⟨1, 3, 3⟩ []
    (by norm_num [sortBidsDesc, insertBidDesc, collectBids, Campaign.get_bid,
      CampaignStaticCPC.get_bid, CampaignStaticCPC.init, Campaign.init, orDefault,
      mkSimState, stC3b, iooC3, FullStat.init, IndividualStat.init])

/-- Claim C5 (amended): run_one_auction ranks the surviving bids by
bid_price × hurdle descending and awards the impression to the top-ranked
bid; ties between equal hurdle-adjusted prices are broken deterministically
in favour of the earliest campaign in the roster (Python's list.sort is
stable and the bid list is collected in roster order) — no randomness is
drawn. The winner is the first collected bid attaining the maximal
hurdle-adjusted value. -/
theorem tie_break_stable_by_roster_order (expf : ℚ → ℚ) (sp : Bool) (st : SimState)
    (ioo : ImpressionOnOffer) (top : Bid) (rest : List Bid)
    (hsort : sortBidsDesc (collectBids expf ioo st.cs 0).2 = top :: rest) :
    (∃ p, (runOneAuction expf sp st ioo).2 = some (top.idx, p)) ∧
    (∃ pre post, (collectBids expf ioo st.cs 0).2 = pre ++ top :: post ∧
       ∀ b ∈ pre, b.adjusted < top.adjusted) ∧
    (∀ b ∈ (collectBids expf ioo st.cs 0).2, b.adjusted ≤ top.adjusted) := by
  rcases sortBidsDesc_head_first_max _ top rest hsort with ⟨⟨pre, post, hdec, hpre⟩, hmax⟩
  refine ⟨⟨?_, ?_⟩, ⟨pre, post, hdec, hpre⟩, hmax⟩
  · exact if sp then (if 1 < (top :: rest).length
      then ((top :: rest).getD 1 default).adjusted /
        ((collectBids expf ioo st.cs 0).1.getD top.idx default).hurdle
      else top.bid) else top.bid
  · simp [runOneAuction, hsort]

/-- Tied static campaign (cpc 10, budget 100). -/
def cTieA : Campaign := CampaignStaticCPC.init 10 100 (some 1) none none

/-- Tied static campaign (cpc 10, budget 50) — same bid, different campaign. -/
def cTieB : Campaign := CampaignStaticCPC.init 10 50 (some 1) none none

/-- Claim C5 (corrected), counterexample: two distinct campaigns submit the
same hurdle-adjusted bid (5); whichever of them is listed first in the roster
wins — run_one_auction is a deterministic function of the roster order and
draws no randomness, so the tie is not broken uniformly at random as the
claim states. -/
theorem tie_break_not_random :
    (runOneAuction expfW false (mkSimState [cTieA, cTieB]) iooC3).2 = some (0, 5) ∧
    (runOneAuction expfW false (mkSimState [cTieB, cTieA]) iooC3).2 = some (0, 5) ∧
    cTieA ≠ cTieB := by
  refine ⟨?_, ?_, ?_⟩
  · norm_num [runOneAuction, collectBids, sortBidsDesc, insertBidDesc, Campaign.get_bid,
      CampaignStaticCPC.get_bid, CampaignStaticCPC.init, Campaign.init, orDefault,
      mkSimState, cTieA, cTieB, iooC3, FullStat.init, IndividualStat.init]
  · norm_num [runOneAuction, collectBids, sortBidsDesc, insertBidDesc, Campaign.get_bid,
      CampaignStaticCPC.get_bid, CampaignStaticCPC.init, Campaign.init, orDefault,
      mkSimState, cTieA, cTieB, iooC3, FullStat.init, IndividualStat.init]
  · intro h
    have hb := congrArg Campaign.daily_budget h
    norm_num [cTieA, cTieB, CampaignStaticCPC.init, Campaign.init] at hb

/-- Witness for C5: the stable-tie-break theorem applied to the concrete tied
roster [cTieA, cTieB]: the winner is the first-listed campaign (index 0) and
its bid is the first maximal element of the collected list. -/
theorem tie_break_stable_witness :
    (∃ p, (runOneAuction expfW false (mkSimState [cTieA, cTieB]) iooC3).2 =
       some ((⟨0, 5, 5⟩ : Bid).idx, p)) ∧
    (∃ pre post, (collectBids expfW iooC3 (mkSimState [cTieA, cTieB]).cs 0).2 =
       pre ++ (⟨0, 5, 5⟩ : Bid) :: post ∧
       ∀ b ∈ pre, b.adjusted < (⟨0, 5, 5⟩ : Bid).adjusted) ∧
    (∀ b ∈ (collectBids expfW iooC3 (mkSimState [cTieA, cTieB]).cs 0).2,
       b.adjusted ≤ (⟨0, 5, 5⟩ : Bid).adjusted) :=
  tie_break_stable_by_roster_order expfW false (mkSimState [cTieA, cTieB]) iooC3
    ⟨0, 5, 5⟩ [⟨1, 5, 5⟩]
    (by norm_num [sortBidsDesc, insertBidDesc, collectBids, Campaign.get_bid,
      CampaignStaticCPC.get_bid, CampaignStaticCPC.init, Campaign.init, orDefault,
      mkSimState, cTieA, cTieB, iooC3, FullStat.init, IndividualStat.init])

/-- A clicked impression at t = 5000 with CTR 1/2. -/
def iooC6 : ImpressionOnOffer :=
  { iid := 2, time_s := 5000, impression_ctr := 1/2, clicked := true }

/-- Claim C6 (amended): when run_one_auction produces a winner, the engine's
single call on the winner is register_impression(impression, clearing_price);
no register_click call is made. That one call increments the winner's
aggregate and hourly click counters by exactly one when impression.clicked is
true (inside FullStat.register_impression) and leaves them unchanged
otherwise, while spend grows by the clearing price independently of the click
outcome — click accounting never affects spend. -/
theorem winner_click_accounting (expf : ℚ → ℚ) (sp : Bool) (st : SimState)
    (ioo : ImpressionOnOffer) (i : ℕ) (p : ℚ) (c0 : Campaign)
    (hout : (runOneAuction expf sp st ioo).2 = some (i, p))
    (h : st.cs[i]? = some c0) :
    ∃ c1, (runOneAuction expf sp st ioo).1.cs[i]? = some c1 ∧
      c1.stat.single.clicks = c0.stat.single.clicks + (if ioo.clicked then 1 else 0) ∧
      (c1.stat.hours ⌊ioo.time_s / (60 * 60)⌋).clicks =
        (c0.stat.hours ⌊ioo.time_s / (60 * 60)⌋).clicks +
          (if ioo.clicked then 1 else 0) ∧
      c1.stat.single.spend = c0.stat.single.spend + p ∧
      runOneAuctionWinnerCalls expf sp st ioo = [WinnerCall.register_impression ioo p] := by
  rcases runOneAuction_step expf sp st ioo i c0 h with
    ⟨_, hnw⟩ | ⟨p', b, hout', hbid, hb0, hg⟩
  · exact absurd hout (hnw p)
  · have hp : p' = p := by
      rw [hout'] at hout
      injection hout with hh
      injection hh with h1 h2
    subst hp
    refine ⟨_, hg, ?_, ?_, ?_, ?_⟩
    · rw [Campaign.register_impression_stat, FullStat.register_impression_clicks,
        Campaign.get_bid_snd_stat]
    · rw [Campaign.register_impression_stat, FullStat.register_impression_hour_clicks,
        Campaign.get_bid_snd_stat]
    · rw [Campaign.register_impression_stat, FullStat.register_impression_spend,
        Campaign.get_bid_snd_stat]
    · simp [runOneAuctionWinnerCalls, hout']

/-- Claim C6 (corrected), counterexample: a concrete won auction with a
clicked impression. The engine's call trace on the winner is exactly one
register_impression call — the claimed register_click call never happens
(src/run.py lines 52-67 contain no register_click invocation; clicks are
counted inside FullStat.register_impression instead). -/
theorem engine_never_calls_register_click :
    iooC6.clicked = true ∧
    (runOneAuction expfW false stC3 iooC6).2 = some (0, 5) ∧
    runOneAuctionWinnerCalls expfW false stC3 iooC6 =
      [WinnerCall.register_impression iooC6 5] ∧
    WinnerCall.register_click iooC6 ∉ runOneAuctionWinnerCalls expfW false stC3 iooC6 := by
  have hout : (runOneAuction expfW false stC3 iooC6).2 = some (0, 5) := by
    norm_num [runOneAuction, collectBids, sortBidsDesc, insertBidDesc, Campaign.get_bid,
      CampaignStaticCPC.get_bid, CampaignStaticCPC.init, Campaign.init, orDefault,
      mkSimState, stC3, iooC6, FullStat.init, IndividualStat.init]
  refine ⟨rfl, hout, ?_, ?_⟩
  · simp [runOneAuctionWinnerCalls, hout]
  · simp [runOneAuctionWinnerCalls, hout]

/-- Witness for C6: the amended click-accounting theorem at the concrete
clicked auction won by campaign 0 at price 5. -/
theorem winner_click_accounting_witness :
    ∃ c1, (runOneAuction expfW false stC3 iooC6).1.cs[0]? = some c1 ∧
      c1.stat.single.clicks =
        (CampaignStaticCPC.init 10 100 (some 1) none none).stat.single.clicks +
          (if iooC6.clicked then 1 else 0) ∧
      (c1.stat.hours ⌊iooC6.time_s / (60 * 60)⌋).clicks =
        ((CampaignStaticCPC.init 10 100 (some 1) none none).stat.hours
            ⌊iooC6.time_s / (60 * 60)⌋).clicks + (if iooC6.clicked then 1 else 0) ∧
      c1.stat.single.spend =
        (CampaignStaticCPC.init 10 100 (some 1) none none).stat.single.spend + 5 ∧
      runOneAuctionWinnerCalls expfW false stC3 iooC6 =
        [WinnerCall.register_impression iooC6 5] :=
  winner_click_accounting expfW false stC3 iooC6 0 5
    (CampaignStaticCPC.init 10 100 (some 1) none none)
    (by norm_num [runOneAuction, collectBids, sortBidsDesc, insertBidDesc, Campaign.get_bid,
      CampaignStaticCPC.get_bid, CampaignStaticCPC.init, Campaign.init, orDefault,
      mkSimState, stC3, iooC6, FullStat.init, IndividualStat.init])
    (by rfl)

/-- The clamp min(2, max(0.1, x)) is always strictly positive. -/
theorem clamp_pos (x : ℚ) : 0 < min 2 (max (1/10) x) := by
  apply lt_min
  · norm_num
  · exact lt_of_lt_of_le (by norm_num) (le_max_left _ _)

/-- The exponential blend ema + (1-e)(x-ema) stays positive when 0 < e < 1,
0 < ema, 0 < x. -/
theorem ema_blend_pos (e ema x : ℚ) (he : 0 < e) (he1 : e < 1) (hema : 0 < ema)
    (hx : 0 < x) : 0 < ema + (1 - e) * (x - ema) := by
  nlinarith [mul_pos he hema, mul_pos (by linarith : (0:ℚ) < 1 - e) hx]

/-- The conditional output_price update leaves the slow EMA unchanged. -/
theorem pacedStep_slow_eq (P : Prop) [Decidable P] (ps1 : PacingState) (x : ℚ) :
    (if P then { ps1 with output_price := ps1.output_price * x }
     else ps1).exp_avg_pace_slow = ps1.exp_avg_pace_slow := by
  split
  · rfl
  · rfl

/-- The conditional output_price update leaves the fast EMA unchanged. -/
theorem pacedStep_fast_eq (P : Prop) [Decidable P] (ps1 : PacingState) (x : ℚ) :
    (if P then { ps1 with output_price := ps1.output_price * x }
     else ps1).exp_avg_pace_fast = ps1.exp_avg_pace_fast := by
  split
  · rfl
  · rfl

/-- The conditional clamped output_price update keeps output_price positive. -/
theorem pacedStep_output_pos (P : Prop) [Decidable P] (ps1 : PacingState) (x : ℚ)
    (h : 0 < ps1.output_price) :
    0 < (if P then { ps1 with output_price := ps1.output_price * min 2 (max (1/10) x) }
         else ps1).output_price := by
  split
  · exact mul_pos h (clamp_pos _)
  · exact h

/-- The conditional EMA seeding leaves output_price unchanged. -/
theorem seedIte_output (P : Prop) [Decidable P] (ps : PacingState) (r : ℚ) :
    (if P then { ps with exp_avg_pace_fast := r, exp_avg_pace_slow := r }
     else ps).output_price = ps.output_price := by
  split
  · rfl
  · rfl

/-- The conditional EMA seeding keeps the slow EMA positive when both the
seed and the prior value are positive. -/
theorem seedIte_slow_pos (P : Prop) [Decidable P] (ps : PacingState) (r : ℚ)
    (hr : 0 < r) (hs : 0 < ps.exp_avg_pace_slow) :
    0 < (if P then { ps with exp_avg_pace_fast := r, exp_avg_pace_slow := r }
         else ps).exp_avg_pace_slow := by
  split
  · exact hr
  · exact hs

/-- The conditional EMA seeding keeps the fast EMA positive when both the
seed and the prior value are positive. -/
theorem seedIte_fast_pos (P : Prop) [Decidable P] (ps : PacingState) (r : ℚ)
    (hr : 0 < r) (hf : 0 < ps.exp_avg_pace_fast) :
    0 < (if P then { ps with exp_avg_pace_fast := r, exp_avg_pace_slow := r }
         else ps).exp_avg_pace_fast := by
  split
  · exact hr
  · exact hf

/-- Field-level form of the clamped-update conditional: the slow EMA field. -/
theorem clampIte_slow (P : Prop) [Decidable P] (o s f lw lb x : ℚ) :
    (if P then ({ output_price := o * min 2 (max (1/10) x), exp_avg_pace_slow := s,
                  exp_avg_pace_fast := f, last_win_time := lw,
                  last_bid_time := lb } : PacingState)
     else { output_price := o, exp_avg_pace_slow := s, exp_avg_pace_fast := f,
            last_win_time := lw, last_bid_time := lb }).exp_avg_pace_slow = s := by
  split
  · rfl
  · rfl

/-- Field-level form of the clamped-update conditional: the fast EMA field. -/
theorem clampIte_fast (P : Prop) [Decidable P] (o s f lw lb x : ℚ) :
    (if P then ({ output_price := o * min 2 (max (1/10) x), exp_avg_pace_slow := s,
                  exp_avg_pace_fast := f, last_win_time := lw,
                  last_bid_time := lb } : PacingState)
     else { output_price := o, exp_avg_pace_slow := s, exp_avg_pace_fast := f,
            last_win_time := lw, last_bid_time := lb }).exp_avg_pace_fast = f := by
  split
  · rfl
  · rfl

/-- Field-level form of the clamped-update conditional: output_price stays
positive. -/
theorem clampIte_output_pos (P : Prop) [Decidable P] (o s f lw lb x : ℚ) (ho : 0 < o) :
    0 < (if P then ({ output_price := o * min 2 (max (1/10) x), exp_avg_pace_slow := s,
                      exp_avg_pace_fast := f, last_win_time := lw,
                      last_bid_time := lb } : PacingState)
         else { output_price := o, exp_avg_pace_slow := s, exp_avg_pace_fast := f,
                last_win_time := lw, last_bid_time := lb }).output_price := by
  split
  · exact mul_pos ho (clamp_pos _)
  · exact ho

/-- Claim C7 (amended): output_price remains strictly positive across every
get_bid and register_impression call; the EMA trackers, however, start at 0
(not strictly positive) and only become and stay strictly positive once
seeded: get_bid preserves positive EMAs and seeds them to the positive
remaining_desired_pace on its main path while no win has occurred; a
register_impression call with positive price, strictly positive elapsed time
since the last win, and (on a first win) remaining budget after the payment,
keeps output_price and both EMAs strictly positive, given the exponential's
range (0,1) on negative arguments. -/
theorem pacing_positivity_amended (expf : ℚ → ℚ)
    (hexpf : ∀ x : ℚ, x < 0 → 0 < expf x ∧ expf x < 1) :
    (∀ (c : Campaign) (ps : PacingState) (ioo : ImpressionOnOffer),
       c.ctype = .pacedMinCPC ps →
       ∃ ps', Campaign.pacingState (CampaignPacedMinCPC.get_bid expf c ps ioo).2 =
           some ps' ∧
         (0 < ps.output_price → 0 < ps'.output_price) ∧
         (0 < ps.exp_avg_pace_slow ∧ 0 < ps.exp_avg_pace_fast →
           0 < ps'.exp_avg_pace_slow ∧ 0 < ps'.exp_avg_pace_fast) ∧
         (ps.last_bid_time ≠ -1 → ps.last_win_time < 0 →
           ¬ c.stat.single.spend ≥ c.daily_budget →
           ¬ (ioo.time_s < c.time_start ∨ ioo.time_s ≥ c.time_end) →
           0 < ps'.exp_avg_pace_slow ∧ 0 < ps'.exp_avg_pace_fast)) ∧
    (∀ (c : Campaign) (ps : PacingState) (ioo : ImpressionOnOffer) (price : ℚ),
       0 < price → ps.last_win_time < ioo.time_s →
       (ps.last_win_time < 0 →
         c.stat.single.spend + price < c.daily_budget ∧ ioo.time_s < c.time_end) →
       (ps.last_win_time < 0 ∨ (0 < ps.exp_avg_pace_slow ∧ 0 < ps.exp_avg_pace_fast)) →
       0 < ps.output_price →
       ∃ ps', Campaign.pacingState
           (CampaignPacedMinCPC.register_impression expf c ps ioo price) = some ps' ∧
         0 < ps'.output_price ∧ 0 < ps'.exp_avg_pace_slow ∧ 0 < ps'.exp_avg_pace_fast) := by
  constructor
  · intro c ps ioo hc
    unfold CampaignPacedMinCPC.get_bid
    by_cases h1 : c.stat.single.spend ≥ c.daily_budget
    · rw [if_pos h1]
      exact ⟨ps, by simp [Campaign.pacingState, hc], fun h => h, fun h => h,
        fun _ _ hsp _ => absurd h1 hsp⟩
    by_cases h2 : ioo.time_s < c.time_start ∨ ioo.time_s ≥ c.time_end
    · rw [if_neg h1, if_pos h2]
      exact ⟨ps, by simp [Campaign.pacingState, hc], fun h => h, fun h => h,
        fun _ _ _ hw => absurd h2 hw⟩
    by_cases h3 : ps.last_bid_time = -1
    · rw [if_neg h1, if_neg h2, if_pos h3]
      exact ⟨{ ps with last_bid_time := ioo.time_s }, by simp [Campaign.pacingState],
        fun h => h, fun h => h, fun hlbt _ _ _ => absurd h3 hlbt⟩
    rw [if_neg h1, if_neg h2, if_neg h3]
    have hrdp : 0 < (c.daily_budget - c.stat.single.spend) / (c.time_end - ioo.time_s) := by
      push_neg at h1 h2
      apply div_pos
      · linarith
      · linarith [h2.2]
    refine ⟨_, rfl, ?_, ?_, ?_⟩ <;> dsimp only
    · intro hp
      apply pacedStep_output_pos
      rw [seedIte_output]
      exact hp
    · rintro ⟨hs, hf⟩
      constructor
      · rw [pacedStep_slow_eq]
        exact seedIte_slow_pos _ _ _ hrdp hs
      · rw [pacedStep_fast_eq]
        exact seedIte_fast_pos _ _ _ hrdp hf
    · intro _ hlwt _ _
      constructor
      · rw [pacedStep_slow_eq, if_pos hlwt]
        exact hrdp
      · rw [pacedStep_fast_eq, if_pos hlwt]
        exact hrdp
  · intro c ps ioo price hprice htlt hseed hema hout
    unfold CampaignPacedMinCPC.register_impression
    have hp : 0 < ioo.time_s - ps.last_win_time := by linarith
    have hobs : 0 < price / (ioo.time_s - ps.last_win_time) := div_pos hprice hp
    have heS := hexpf (-((ioo.time_s - ps.last_win_time) / SLOW_T)) (by
      have := div_pos hp (show (0:ℚ) < SLOW_T by norm_num [SLOW_T])
      linarith)
    have heF := hexpf (-((ioo.time_s - ps.last_win_time) / FAST_T)) (by
      have := div_pos hp (show (0:ℚ) < FAST_T by norm_num [FAST_T])
      linarith)
    dsimp only
    by_cases hlwt : ps.last_win_time < 0
    · rw [if_pos hlwt]
      have hrdp : 0 < (c.daily_budget -
          (FullStat.register_impression c.stat ioo price).single.spend) /
          (c.time_end - ioo.time_s) := by
        rw [FullStat.register_impression_spend]
        rcases hseed hlwt with ⟨hs1, hs2⟩
        apply div_pos
        · linarith
        · linarith
      refine ⟨_, rfl, ?_, ?_, ?_⟩ <;> dsimp only
      · exact clampIte_output_pos _ _ _ _ _ _ _ hout
      · rw [clampIte_slow]
        exact ema_blend_pos _ _ _ heS.1 heS.2 hrdp hobs
      · rw [clampIte_fast]
        exact ema_blend_pos _ _ _ heF.1 heF.2 hrdp hobs
    · rcases hema with hema | ⟨hs, hf⟩
      · exact absurd hema hlwt
      rw [if_neg hlwt]
      refine ⟨_, rfl, ?_, ?_, ?_⟩ <;> dsimp only
      · exact clampIte_output_pos _ _ _ _ _ _ _ hout
      · rw [clampIte_slow]
        exact ema_blend_pos _ _ _ heS.1 heS.2 hs hobs
      · rw [clampIte_fast]
        exact ema_blend_pos _ _ _ heF.1 heF.2 hf hobs

/-- An impression at t = 10 with CTR 1/2, unclicked. -/
def iooC7 : ImpressionOnOffer :=
  { iid := 0, time_s := 10, impression_ctr := 1/2, clicked := false }

/-- Claim C7 (corrected), counterexample: immediately after initialization
both EMA trackers are 0, and they are still 0 after the first get_bid call
(which only records last_bid_time) — they are not strictly positive as the
claim states. -/
theorem emas_zero_after_init :
    Campaign.pacingState
        (CampaignPacedMinCPC.get_bid expfW (CampaignPacedMinCPC.init 200 none none none)
          pacedInitState iooC7).2 =
      some { pacedInitState with last_bid_time := 10 } ∧
    pacedInitState.exp_avg_pace_slow = 0 ∧ pacedInitState.exp_avg_pace_fast = 0 ∧
    ¬ ((0 : ℚ) < 0) := by
  refine ⟨?_, rfl, rfl, by norm_num⟩
  norm_num [CampaignPacedMinCPC.get_bid, CampaignPacedMinCPC.init, Campaign.init,
    orDefault, pacedInitState, Campaign.pacingState, iooC7, FullStat.init,
    IndividualStat.init]

/-- Witness for C7: the register_impression clause of the positivity theorem
at a concrete first win (fresh paced campaign, price 1 at t = 10). -/
theorem pacing_positivity_witness :
    ∃ ps', Campaign.pacingState
        (CampaignPacedMinCPC.register_impression expfW
          (CampaignPacedMinCPC.init 200 none none none) pacedInitState iooC7 1) =
      some ps' ∧
      0 < ps'.output_price ∧ 0 < ps'.exp_avg_pace_slow ∧ 0 < ps'.exp_avg_pace_fast :=
  (pacing_positivity_amended expfW expfW_bounds).2
    (CampaignPacedMinCPC.init 200 none none none) pacedInitState iooC7 1
    (by norm_num)
    (by norm_num [pacedInitState, iooC7])
    (by
      intro _
      constructor <;>
        norm_num [CampaignPacedMinCPC.init, Campaign.init, orDefault, FullStat.init,
          IndividualStat.init, iooC7])
    (Or.inl (by norm_num [pacedInitState]))
    (by norm_num [pacedInitState])

/-- Claim C8 (confirmed): the pacing controller special-cases its first bid
and first win so no division by a zero elapsed time occurs: the first get_bid
(last_bid_time = -1, budget not exhausted, inside the window) records
last_bid_time and returns the seeded output_price, changing nothing else and
computing no rate; and while last_win_time is still at its initial -1, the
EMA-update denominator now - last_win_time = now + 1 is strictly positive for
every impression time now ≥ 0. -/
theorem first_bid_and_first_win_guards :
    (∀ (expf : ℚ → ℚ) (c : Campaign) (ps : PacingState) (ioo : ImpressionOnOffer),
       ¬ c.stat.single.spend ≥ c.daily_budget →
       ¬ (ioo.time_s < c.time_start ∨ ioo.time_s ≥ c.time_end) →
       ps.last_bid_time = -1 →
       CampaignPacedMinCPC.get_bid expf c ps ioo =
         (some ps.output_price,
          { c with ctype := .pacedMinCPC { ps with last_bid_time := ioo.time_s } })) ∧
    (∀ ps : PacingState, ps.last_win_time = -1 →
       ∀ t : ℚ, 0 ≤ t → 0 < t - ps.last_win_time) ∧
    (Campaign.pacingState (CampaignPacedMinCPC.init 200 none none none) =
       some pacedInitState ∧
     pacedInitState.last_win_time = -1 ∧ pacedInitState.last_bid_time = -1) := by
  refine ⟨?_, ?_, ?_, rfl, rfl⟩
  · intro expf c ps ioo h1 h2 h3
    unfold CampaignPacedMinCPC.get_bid
    rw [if_neg h1, if_neg h2, if_pos h3]
  · intro ps h t ht
    rw [h]
    linarith
  · simp [Campaign.pacingState, CampaignPacedMinCPC.init, Campaign.init]

/-- Witness for C8: a fresh paced campaign at t = 10 — the first bid returns
the 0.1 seed and only records last_bid_time, and the first-win denominator is
positive. -/
theorem first_bid_and_first_win_guards_witness :
    CampaignPacedMinCPC.get_bid expfW (CampaignPacedMinCPC.init 200 none none none)
        pacedInitState iooC7 =
      (some pacedInitState.output_price,
       { CampaignPacedMinCPC.init 200 none none none with
         ctype := .pacedMinCPC { pacedInitState with last_bid_time := iooC7.time_s } }) ∧
    0 < iooC7.time_s - pacedInitState.last_win_time := by
  constructor
  · exact first_bid_and_first_win_guards.1 expfW
      (CampaignPacedMinCPC.init 200 none none none) pacedInitState iooC7
      (by norm_num [CampaignPacedMinCPC.init, Campaign.init, orDefault, FullStat.init,
        IndividualStat.init])
      (by norm_num [CampaignPacedMinCPC.init, Campaign.init, orDefault, iooC7])
      rfl
  · exact first_bid_and_first_win_guards.2.1 pacedInitState rfl iooC7.time_s
      (by norm_num [iooC7])

/-- Claim C9 (amended): CampaignThrottledStaticCPC and CampaignPacedMinCPC
decline whenever the impression time lies outside the half-open window
[time_start, time_end); CampaignStaticCPC, however, declines only when
time_s < time_start or time_s > time_end — its window is closed on the right,
so an impression at exactly time_end is accepted (bid cpc × CTR) when budget
remains; the base Campaign performs no window check at all, always returning
a 0.0 bid (which the engine excludes). -/
theorem time_window_amended :
    (∀ (c : Campaign) (cpc : ℚ) (ioo : ImpressionOnOffer),
       ioo.time_s < c.time_start ∨ ioo.time_s ≥ c.time_end →
       CampaignThrottledStaticCPC.get_bid c cpc ioo = none) ∧
    (∀ (expf : ℚ → ℚ) (c : Campaign) (ps : PacingState) (ioo : ImpressionOnOffer),
       ioo.time_s < c.time_start ∨ ioo.time_s ≥ c.time_end →
       (CampaignPacedMinCPC.get_bid expf c ps ioo).1 = none) ∧
    (∀ (c : Campaign) (cpc : ℚ) (ioo : ImpressionOnOffer),
       ioo.time_s < c.time_start ∨ ioo.time_s > c.time_end →
       CampaignStaticCPC.get_bid c cpc ioo = none) ∧
    (∀ (c : Campaign) (cpc : ℚ) (ioo : ImpressionOnOffer),
       c.stat.single.spend < c.daily_budget → c.time_start ≤ ioo.time_s →
       ioo.time_s ≤ c.time_end →
       CampaignStaticCPC.get_bid c cpc ioo = some (cpc * ioo.impression_ctr)) ∧
    (∀ (expf : ℚ → ℚ) (c : Campaign) (ioo : ImpressionOnOffer), c.ctype = .base →
       (Campaign.get_bid expf c ioo).1 = some 0) := by
  refine ⟨?_, ?_, ?_, ?_, ?_⟩
  · intro c cpc ioo h
    unfold CampaignThrottledStaticCPC.get_bid
    by_cases h1 : c.stat.single.spend ≥ c.daily_budget
    · rw [if_pos h1]
    · rw [if_neg h1, if_pos h]
  · intro expf c ps ioo h
    unfold CampaignPacedMinCPC.get_bid
    by_cases h1 : c.stat.single.spend ≥ c.daily_budget
    · rw [if_pos h1]
    · rw [if_neg h1, if_pos h]
  · intro c cpc ioo h
    unfold CampaignStaticCPC.get_bid
    by_cases h1 : c.stat.single.spend ≥ c.daily_budget
    · rw [if_pos h1]
    · rw [if_neg h1, if_pos h]
  · intro c cpc ioo hsp hts hte
    unfold CampaignStaticCPC.get_bid
    rw [if_neg (not_le.mpr hsp), if_neg (by push_neg; exact ⟨hts, hte⟩)]
  · intro expf c ioo hc
    rw [Campaign.get_bid_base expf c ioo hc]

/-- A static campaign with window [0, 3600] and cpc 2. -/
def cC9 : Campaign := CampaignStaticCPC.init 2 100 (some 1) none (some 3600)

/-- An impression exactly at the static campaign's time_end. -/
def iooC9 : ImpressionOnOffer :=
  { iid := 1, time_s := 3600, impression_ctr := 1/2, clicked := false }

/-- Claim C9 (corrected), counterexample: a static campaign with window
[0, 3600] receives an impression at exactly time_end = 3600 and bids
some 1 — it does not decline, contradicting the claim that every strategy
declines at time_end. -/
theorem static_accepts_time_end :
    iooC9.time_s = cC9.time_end ∧
    CampaignStaticCPC.get_bid cC9 2 iooC9 = some 1 ∧
    CampaignStaticCPC.get_bid cC9 2 iooC9 ≠ none := by
  refine ⟨?_, ?_, ?_⟩
  · norm_num [cC9, iooC9, CampaignStaticCPC.init, Campaign.init, orDefault]
  · norm_num [CampaignStaticCPC.get_bid, cC9, iooC9, CampaignStaticCPC.init,
      Campaign.init, orDefault, FullStat.init, IndividualStat.init]
  · rw [show CampaignStaticCPC.get_bid cC9 2 iooC9 = some 1 from by
      norm_num [CampaignStaticCPC.get_bid, cC9, iooC9, CampaignStaticCPC.init,
        Campaign.init, orDefault, FullStat.init, IndividualStat.init]]
    exact Option.noConfusion

/-- An impression at t = 86400, the end of the default whole-day window. -/
def iooDayEnd : ImpressionOnOffer :=
  { iid := 3, time_s := 86400, impression_ctr := 1/2, clicked := false }

/-- Witness for C9: throttled and paced strategies decline an impression at
exactly the end of the default whole-day window. -/
theorem time_window_amended_witness :
    CampaignThrottledStaticCPC.get_bid
        (CampaignThrottledStaticCPC.init 3 100 (some 1) none none) 3 iooDayEnd = none ∧
    (CampaignPacedMinCPC.get_bid expfW (CampaignPacedMinCPC.init 200 none none none)
        pacedInitState iooDayEnd).1 = none := by
  constructor
  · exact time_window_amended.1 _ 3 iooDayEnd
      (Or.inr (by norm_num [CampaignThrottledStaticCPC.init, Campaign.init, orDefault,
        iooDayEnd]))
  · exact time_window_amended.2.1 expfW _ pacedInitState iooDayEnd
      (Or.inr (by norm_num [CampaignPacedMinCPC.init, Campaign.init, orDefault,
        iooDayEnd]))
